import Mathlib

/-!
Verification of the docling conversion pipeline orchestrator against its
specification.  The definitions below are a shallow embedding of the code
under src/: the staged execute flow of BasePipeline, the paginated build
phase, the status resolver, the enrichment batching, the batch settings and
the PowerPoint backend teardown.  Components of the repository that are not
under src/ (the chunkify helper, InputDocument and ConversionResult) are
modelled from the spec and marked as such in their doc comments.
-/

namespace Docling

/-- Conversion status codes (src/docling/datamodel/base_models.py,
ConversionStatus). -/
inductive ConversionStatus
  | PENDING
  | STARTED
  | FAILURE
  | SUCCESS
  | PARTIAL_SUCCESS
deriving DecidableEq

/-- Component kinds for error items (src/docling/datamodel/base_models.py,
DoclingComponentType). -/
inductive DoclingComponentType
  | DOCUMENT_BACKEND
  | MODEL
  | DOC_ASSEMBLER
deriving DecidableEq

/-- Structured error record (src/docling/datamodel/base_models.py,
ErrorItem). -/
structure ErrorItem where
  component_type : DoclingComponentType
  module_name : String
  error_message : String
deriving DecidableEq

/-- Page-level backend slice as seen by the status resolver: the pipeline
only calls is_valid on it (base_pipeline.py line 181); the name field models
the runtime type name used for the module_name of an error item. -/
structure PageBackend where
  is_valid : Bool
  name : String
deriving DecidableEq

/-- Page record (src/docling/datamodel/base_models.py, Page): the page_no
field and the optional page-level backend reference.  The remaining fields
of the source class (size, cells, predictions, assembled, image cache) play
no role in the claims under verification and are not inspected by the
pipeline code embedded here. -/
structure Page where
  page_no : Nat
  _backend : Option PageBackend := none
deriving DecidableEq

/-- Document-level backend handle attached to an input document: the
pipeline tests isinstance of PdfDocumentBackend on it and calls unload on
it.  The is_pdf field models the isinstance test. -/
structure DocBackend where
  is_pdf : Bool
  name : String
deriving DecidableEq

/-- Modelled from the spec: InputDocument (docling/datamodel/document.py is
not under src/).  Section 3 DocumentHandle: validity flag, page count and a
backend handle, nullable. -/
structure InputDocument where
  valid : Bool
  page_count : Nat
  backend : Option DocBackend := none
deriving DecidableEq

/-- Elements of the assembled output document are opaque to the core; they
are modelled by identifiers. -/
abbrev NodeItem := Nat

/-- Modelled from the spec: ConversionResult (docling/datamodel/document.py
is not under src/).  Section 3: input handle, ordered list of page records,
assembled output document (modelled by its ordered element list), status and
ordered error list.  Section 6 lists PENDING among the status codes; a fresh
result starts there. -/
structure ConversionResult where
  input : InputDocument
  pages : List Page := []
  errors : List ErrorItem := []
  output : List NodeItem := []
  status : ConversionStatus := .PENDING
deriving DecidableEq

/-- Python exceptions travelling through the pipeline control flow. -/
inductive Exn
  | runtimeError (msg : String)
  | other (msg : String)
deriving DecidableEq

/-- Batch settings (src/docling/datamodel/settings.py,
BatchConcurrencySettings): plain pydantic int fields with defaults; the
source declares no lower bound on any of them. -/
structure BatchConcurrencySettings where
  doc_batch_size : Int := 2
  doc_batch_concurrency : Int := 2
  page_batch_size : Int := 4
  page_batch_concurrency : Int := 2
  elements_batch_size : Int := 16
deriving DecidableEq

/-- The perf component of the process-wide settings object
(src/docling/datamodel/settings.py line 47). -/
def settings_perf : BatchConcurrencySettings := {}

/-- Fuel-indexed worker for chunkify: with fuel at least the length of the
list, the take-drop recursion becomes structural. -/
def chunkifyGo {α : Type _} (chunk_size : Nat) : Nat → List α → List (List α)
  | _, [] => []
  | 0, _ :: _ => []
  | fuel + 1, x :: xs =>
    (x :: xs).take chunk_size :: chunkifyGo chunk_size fuel ((x :: xs).drop chunk_size)

/-- Modelled from the spec: chunkify (imported by base_pipeline.py from
docling.utils.utils, which is not under src/).  Section 4.4 Batch Scheduler:
given an ordered sequence and a batch size of at least 1, yield contiguous
batches preserving order, the final batch possibly shorter; no reordering,
no deduplication. -/
def chunkify {α : Type _} (l : List α) (chunk_size : Nat) : List (List α) :=
  chunkifyGo chunk_size l.length l

/-- Message of the error item recorded for an invalid page
(base_pipeline.py line 186). -/
def pageErrorMsg (n : Nat) : String := "Page " ++ toString n ++ " failed to parse."

/-- Message of the Python attribute error raised when the status resolver
reads is_valid from a page whose backend reference is None. -/
def attrErrorMsg : String := "NoneType object has no attribute is_valid"

/-- Runtime type name of a page backend, as used for the module_name field
of an error item; NoneType when the reference is None. -/
def backendName (p : Page) : String :=
  match p._backend with
  | some b => b.name
  | none => "NoneType"

/-- Validity reported by the backend of a page; a missing backend reference
counts as not valid (reading it raises instead, see determineStatusGo). -/
def pageValid (p : Page) : Bool :=
  match p._backend with
  | some b => b.is_valid
  | none => false

/-- Error item appended for a page whose backend reports invalid
(base_pipeline.py lines 182-188). -/
def pageErrorItem (p : Page) : ErrorItem :=
  { component_type := .DOCUMENT_BACKEND
    module_name := backendName p
    error_message := pageErrorMsg p.page_no }

/-- Optional error item contributed by a page to the status resolver: one
item exactly when the backend reports invalid. -/
def pageErrorOf (p : Page) : Option ErrorItem :=
  match p._backend with
  | some b => if b.is_valid then none else some (pageErrorItem p)
  | none => none

/-- Loop of PaginatedPipeline._determine_status (base_pipeline.py lines
176-191): the local status variable starts at SUCCESS; each page whose
backend reports invalid appends one error item (component DOCUMENT_BACKEND,
message naming the page index) and downgrades the local status to
PARTIAL_SUCCESS.  A page whose backend reference is None makes the Python
attribute access raise; the raised error carries the error items appended so
far, since the source appends to the result in place. -/
def determineStatusGo : List Page → List ErrorItem → ConversionStatus →
    Except (Exn × List ErrorItem) (List ErrorItem × ConversionStatus)
  | [], errs, status => .ok (errs, status)
  | p :: ps, errs, status =>
    match p._backend with
    | none => .error (.other attrErrorMsg, errs)
    | some b =>
      if b.is_valid then
        determineStatusGo ps errs status
      else
        determineStatusGo ps (errs ++ [pageErrorItem p]) ConversionStatus.PARTIAL_SUCCESS

/-- PaginatedPipeline._determine_status applied to a conversion result: the
errors list of the result is extended and the computed status returned. -/
def _determine_status (conv_res : ConversionResult) :
    Except (Exn × List ErrorItem) (List ErrorItem × ConversionStatus) :=
  determineStatusGo conv_res.pages conv_res.errors .SUCCESS

/-- Enrichment stage contract (docling/models/base_model.py is not under
src/): the pipeline uses exactly an is_processable predicate over the
document and a candidate element (base_pipeline.py line 77); the per-batch
call is exhausted for effect only and mutates elements in place. -/
structure BaseEnrichmentModel where
  is_processable : List NodeItem → NodeItem → Bool

/-- Inner _filter_elements of BasePipeline._enrich_document (lines 73-78):
the elements of the document, in document order, for which the model
declares itself able to process. -/
def _filter_elements (doc : List NodeItem) (model : BaseEnrichmentModel) :
    List NodeItem :=
  doc.filter (fun element => model.is_processable doc element)

/-- BasePipeline._enrich_document (lines 69-92): for each model of the
enrichment pipe, batch the filtered elements with chunkify at the configured
elements_batch_size and invoke the model once per batch, exhausting each
batch.  The models mutate elements in place, so conv_res is returned
unchanged; the second component records the invocation batches, one entry
per model call, in invocation order. -/
def _enrich_document (enrichment_pipe : List BaseEnrichmentModel)
    (elements_batch_size : Nat) (conv_res : ConversionResult) :
    ConversionResult × List (List NodeItem) :=
  (conv_res,
    (enrichment_pipe.map
      (fun model =>
        chunkify (_filter_elements conv_res.output model) elements_batch_size)).flatten)

/-- A build stage: consumes a batch of page records and produces a batch of
page records, possibly raising. -/
abbrev StageFn := List Page → Except Exn (List Page)

/-- Instance data of a PaginatedPipeline: the build pipe stage chain, the
abstract initialize_page hook (line 195, abstract in the source), the
enrichment pipe and the batch settings the source reads from the
process-wide settings object. -/
structure PaginatedModel where
  build_pipe : List StageFn
  initialize_page : InputDocument → Page → Except Exn Page
  enrichment_pipe : List BaseEnrichmentModel := []
  perf : BatchConcurrencySettings := {}

/-- PaginatedPipeline._apply_on_pages (lines 119-123): chain the build pipe
stages over a page batch, in order. -/
def _apply_on_pages (build_pipe : List StageFn) (page_batch : List Page) :
    Except Exn (List Page) :=
  match build_pipe with
  | [] => .ok page_batch
  | model :: rest =>
    match model page_batch with
    | .error e => .error e
    | .ok page_batch2 => _apply_on_pages rest page_batch2

/-- The map of initialize_page over a page batch (lines 147-149); the first
raising page aborts the batch. -/
def initPages (m : PaginatedModel) (in_doc : InputDocument) :
    List Page → Except Exn (List Page)
  | [] => .ok []
  | p :: ps =>
    match m.initialize_page in_doc p with
    | .error e => .error e
    | .ok q =>
      match initPages m in_doc ps with
      | .error e => .error e
      | .ok qs => .ok (q :: qs)

/-- Batch loop of PaginatedPipeline._build_document (lines 141-158):
initialise each batch, run it through the stage chain and exhaust it;
batches are processed in order and the first fault aborts the loop.
In-place mutation of the page records is modelled by the processed batch
replacing the input batch. -/
def processBatches (m : PaginatedModel) (in_doc : InputDocument) :
    List (List Page) → Except Exn (List Page)
  | [] => .ok []
  | page_batch :: rest =>
    match initPages m in_doc page_batch with
    | .error e => .error e
    | .ok init_pages =>
      match _apply_on_pages m.build_pipe init_pages with
      | .error e => .error e
      | .ok pipeline_pages =>
        match processBatches m in_doc rest with
        | .error e => .error e
        | .ok rest_pages => .ok (pipeline_pages ++ rest_pages)

/-- Message of the RuntimeError raised for a backend that is not a PDF
backend (base_pipeline.py lines 130-134). -/
def notPdfBackendMsg : String :=
  "The selected backend is not a PDF backend. Can not convert this with a PDF pipeline. Please check your format configuration on DocumentConverter."

/-- The isinstance test of base_pipeline.py line 129: whether the backend
attached to the input document is a PdfDocumentBackend. -/
def backendIsPdf (in_doc : InputDocument) : Bool :=
  match in_doc.backend with
  | some b => b.is_pdf
  | none => false

/-- PaginatedPipeline._build_document (lines 125-174).  The isinstance guard
raises a RuntimeError before any page record is created and before the
try-finally block is entered, so the finally clause that unloads the backend
does not run on that path.  Otherwise one page record per page index is
appended to conv_res.pages, the page batches are processed, and the finally
clause unloads the backend exactly once whether the batch loop returned or
raised.  A raising batch loop first sets the status to FAILURE and the fault
carries the mutated conv_res.  The second component counts the backend
unload calls performed. -/
def _build_document (m : PaginatedModel) (in_doc : InputDocument)
    (conv_res : ConversionResult) :
    Except (Exn × ConversionResult) ConversionResult × Nat :=
  if backendIsPdf in_doc then
    let conv_res1 :=
      { conv_res with
        pages :=
          conv_res.pages ++
            (List.range in_doc.page_count).map (fun i => ({ page_no := i } : Page)) }
    let unloads := if in_doc.backend.isSome then 1 else 0
    match processBatches m in_doc
        (chunkify conv_res1.pages m.perf.page_batch_size.toNat) with
    | .ok new_pages => (.ok { conv_res1 with pages := new_pages }, unloads)
    | .error e => (.error (e, { conv_res1 with status := .FAILURE }), unloads)
  else
    (.error (.runtimeError notPdfBackendMsg, conv_res), 0)

/-- The conversion result created at the start of BasePipeline.execute
(line 34). -/
def initialConvRes (in_doc : InputDocument) : ConversionResult :=
  { input := in_doc }

/-- A phase of the pipeline, as composed by BasePipeline.execute: consumes
and produces the conversion result, with a fault carrying the result as
mutated so far. -/
abbrev Phase :=
  InputDocument → ConversionResult → Except (Exn × ConversionResult) ConversionResult

/-- The try block of BasePipeline.execute (lines 43-50): build, assemble and
enrich in order, then overwrite the status with the determined status. -/
def runPhases (bld asm enr : Phase)
    (det : InputDocument → ConversionResult →
      Except (Exn × ConversionResult) (ConversionResult × ConversionStatus))
    (in_doc : InputDocument) (conv_res : ConversionResult) :
    Except (Exn × ConversionResult) ConversionResult :=
  match bld in_doc conv_res with
  | .error e => .error e
  | .ok cr1 =>
    match asm in_doc cr1 with
    | .error e => .error e
    | .ok cr2 =>
      match enr in_doc cr2 with
      | .error e => .error e
      | .ok cr3 =>
        match det in_doc cr3 with
        | .error e => .error e
        | .ok (cr4, status) => .ok { cr4 with status := status }

/-- BasePipeline.execute (lines 33-56): an invalid input returns a FAILURE
result at once, before any phase runs; otherwise the phases run under a
guard that, on a fault, sets the status to FAILURE and re-raises exactly
when raises_on_error is true. -/
def execute (bld asm enr : Phase)
    (det : InputDocument → ConversionResult →
      Except (Exn × ConversionResult) (ConversionResult × ConversionStatus))
    (in_doc : InputDocument) (raises_on_error : Bool) : Except Exn ConversionResult :=
  let conv_res := initialConvRes in_doc
  if in_doc.valid then
    match runPhases bld asm enr det in_doc conv_res with
    | .ok cr => .ok cr
    | .error (e, cr) =>
      if raises_on_error then .error e else .ok { cr with status := .FAILURE }
  else
    .ok { conv_res with status := .FAILURE }

/-- BasePipeline.execute specialised to a PaginatedPipeline: _build_document
as above (with its unload count), the default identity _assemble_document of
the base class (lines 64-67), _enrich_document over the enrichment pipe and
finally _determine_status.  The second component is the number of backend
unload calls performed during the whole execution. -/
def executePaginated (m : PaginatedModel) (in_doc : InputDocument)
    (raises_on_error : Bool) : Except Exn ConversionResult × Nat :=
  let conv_res := initialConvRes in_doc
  if in_doc.valid then
    match _build_document m in_doc conv_res with
    | (.error (e, cr), unloads) =>
      ((if raises_on_error then .error e else .ok { cr with status := .FAILURE }), unloads)
    | (.ok cr, unloads) =>
      let cr2 := (_enrich_document m.enrichment_pipe m.perf.elements_batch_size.toNat cr).1
      match _determine_status cr2 with
      | .error (e, errs) =>
        ((if raises_on_error then .error e
          else .ok { cr2 with errors := errs, status := .FAILURE }), unloads)
      | .ok (errs, status) => (.ok { cr2 with errors := errs, status := status }, unloads)
  else
    (.ok { conv_res with status := .FAILURE }, 0)

/-- Source handle of a PPTX backend: the Union of BytesIO and Path at
src/docling/backend/mspowerpoint_backend.py line 31. -/
inductive PptxSource
  | stream (closed : Bool)
  | path (p : String)
deriving DecidableEq

/-- State of MsPowerpointDocumentBackend relevant to teardown: the
path_or_stream field, None after unload. -/
structure MsPowerpointDocumentBackend where
  path_or_stream : Option PptxSource
deriving DecidableEq

/-- MsPowerpointDocumentBackend.unload (mspowerpoint_backend.py lines
48-52): close the stream when path_or_stream is a BytesIO, then set
path_or_stream to None.  The Bool component records whether this call closed
a stream. -/
def MsPowerpointDocumentBackend.unload (b : MsPowerpointDocumentBackend) :
    MsPowerpointDocumentBackend × Bool :=
  match b.path_or_stream with
  | some (.stream _) => ({ path_or_stream := none }, true)
  | _ => ({ path_or_stream := none }, false)

/-- A trivial paginated pipeline: no build stages, initialize_page returns
the page unchanged, default settings. -/
def trivialModel : PaginatedModel :=
  { build_pipe := []
    initialize_page := fun _ p => .ok p }

/-- A PowerPoint document backend handle, which is not a PDF backend. -/
def pptxDocBackend : DocBackend := { is_pdf := false, name := "MsPowerpointDocumentBackend" }

/-- A valid input document whose attached backend is the PowerPoint backend. -/
def nonPdfDoc : InputDocument :=
  { valid := true, page_count := 3, backend := some pptxDocBackend }

/-- A PDF document backend handle. -/
def pdfDocBackend : DocBackend := { is_pdf := true, name := "PdfDocumentBackend" }

/-- A valid ten-page input document with a PDF backend. -/
def pdfDoc10 : InputDocument :=
  { valid := true, page_count := 10, backend := some pdfDocBackend }

/-- An input document that fails the initial validity check. -/
def invalidDoc : InputDocument := { valid := false, page_count := 0 }

/-- A valid input document used by the generic execute scenarios. -/
def validDoc : InputDocument := { valid := true, page_count := 0 }

/-- Message of the fault raised by the failing build phase below. -/
def boomMsg : String := "boom"

/-- A build phase that raises at once, carrying the untouched result. -/
def failingBuild : Phase := fun _ cr => .error (.other boomMsg, cr)

/-- An identity phase, as the default _assemble_document (lines 64-67). -/
def idPhase : Phase := fun _ cr => .ok cr

/-- A status determination that leaves the errors unchanged and reports
SUCCESS. -/
def okDet : InputDocument → ConversionResult →
    Except (Exn × ConversionResult) (ConversionResult × ConversionStatus) :=
  fun _ cr => .ok (cr, .SUCCESS)

/-- Runtime type name of the page backend used in the concrete scenarios. -/
def pdfPageBackendName : String := "PdfPageBackend"

/-- A page backend reporting valid. -/
def validPageBackend : PageBackend := { is_valid := true, name := pdfPageBackendName }

/-- A page backend reporting invalid. -/
def invalidPageBackend : PageBackend := { is_valid := false, name := pdfPageBackendName }

/-- The five-page scenario of the spec: backend validity true, false, true,
true, false. -/
def pages5 : List Page :=
  [{ page_no := 0, _backend := some validPageBackend },
   { page_no := 1, _backend := some invalidPageBackend },
   { page_no := 2, _backend := some validPageBackend },
   { page_no := 3, _backend := some validPageBackend },
   { page_no := 4, _backend := some invalidPageBackend }]

/-- An enrichment model that declares every element processable. -/
def allModel : BaseEnrichmentModel := { is_processable := fun _ _ => true }

/-- A conversion result whose assembled output document has forty elements. -/
def doc40Res : ConversionResult := { input := validDoc, output := List.range 40 }

end Docling

namespace Docling

theorem chunkifyGo_nil {α : Type _} (b fuel : Nat) :
    chunkifyGo b fuel ([] : List α) = [] := by
  cases fuel <;> rfl

theorem chunkifyGo_cons {α : Type _} (b fuel : Nat) (x : α) (xs : List α) :
    chunkifyGo b (fuel + 1) (x :: xs) =
      (x :: xs).take b :: chunkifyGo b fuel ((x :: xs).drop b) := rfl

theorem chunkifyGo_flatten {α : Type _} (b : Nat) (hb : 0 < b) :
    ∀ (fuel : Nat) (l : List α), l.length ≤ fuel →
      (chunkifyGo b fuel l).flatten = l := by
  intro fuel
  induction fuel with
  | zero =>
    intro l hl
    have : l = [] := List.eq_nil_of_length_eq_zero (Nat.le_zero.mp hl)
    subst this
    simp [chunkifyGo_nil]
  | succ n ih =>
    intro l hl
    cases l with
    | nil => simp [chunkifyGo_nil]
    | cons x xs =>
      rw [chunkifyGo_cons, List.flatten_cons, ih]
      · exact List.take_append_drop b (x :: xs)
      · have hd : ((x :: xs).drop b).length = (x :: xs).length - b :=
          List.length_drop b (x :: xs)
        have hlen : (x :: xs).length = xs.length + 1 := rfl
        omega

theorem chunkifyGo_length {α : Type _} (b : Nat) (hb : 0 < b) :
    ∀ (fuel : Nat) (l : List α), l.length ≤ fuel →
      (chunkifyGo b fuel l).length = (l.length + b - 1) / b := by
  intro fuel
  induction fuel with
  | zero =>
    intro l hl
    have : l = [] := List.eq_nil_of_length_eq_zero (Nat.le_zero.mp hl)
    subst this
    simp [chunkifyGo_nil]
    exact (Nat.div_eq_of_lt (by omega)).symm
  | succ n ih =>
    intro l hl
    cases l with
    | nil =>
      simp [chunkifyGo_nil]
      exact (Nat.div_eq_of_lt (by omega)).symm
    | cons x xs =>
      rw [chunkifyGo_cons]
      have hd : ((x :: xs).drop b).length = (x :: xs).length - b :=
        List.length_drop b (x :: xs)
      have hlen : (x :: xs).length = xs.length + 1 := rfl
      have hrec := ih ((x :: xs).drop b) (by omega)
      rw [List.length_cons, hrec, hd]
      have hm1 : 1 ≤ (x :: xs).length := by omega
      have hr : ((x :: xs).length + b - 1) / b = ((x :: xs).length - 1) / b + 1 := by
        have h2 : (x :: xs).length + b - 1 = ((x :: xs).length - 1) + b := by omega
        rw [h2, Nat.add_div_right _ hb]
      rw [hr]
      rcases le_or_lt b (x :: xs).length with hle | hlt
      · have h3 : (x :: xs).length - b + b - 1 = (x :: xs).length - 1 := by omega
        rw [h3]
      · have h4 : (x :: xs).length - b + b - 1 < b := by omega
        have h5 : (x :: xs).length - 1 < b := by omega
        rw [Nat.div_eq_of_lt h4, Nat.div_eq_of_lt h5]

theorem chunkifyGo_dropLast {α : Type _} (b : Nat) (hb : 0 < b) :
    ∀ (fuel : Nat) (l : List α), l.length ≤ fuel →
      ∀ c ∈ (chunkifyGo b fuel l).dropLast, c.length = b := by
  intro fuel
  induction fuel with
  | zero =>
    intro l hl c hc
    have : l = [] := List.eq_nil_of_length_eq_zero (Nat.le_zero.mp hl)
    subst this
    simp [chunkifyGo_nil] at hc
  | succ n ih =>
    intro l hl c hc
    cases l with
    | nil => simp [chunkifyGo_nil] at hc
    | cons x xs =>
      rw [chunkifyGo_cons] at hc
      rcases hrest : chunkifyGo b n ((x :: xs).drop b) with _ | ⟨r, rs⟩
      · rw [hrest] at hc
        simp at hc
      · rw [hrest] at hc
        rw [List.dropLast_cons₂] at hc
        rcases List.mem_cons.mp hc with hc1 | hc2
        · subst hc1
          have hdne : (x :: xs).drop b ≠ [] := by
            intro hnil
            rw [hnil, chunkifyGo_nil] at hrest
            exact List.cons_ne_nil r rs hrest.symm
          have hdl : 0 < (x :: xs).length - b := by
            have := List.length_drop b (x :: xs)
            have hpos : 0 < ((x :: xs).drop b).length :=
              List.length_pos.mpr hdne
            omega
          rw [List.length_take]
          have : b ≤ (x :: xs).length := by omega
          omega
        · have hd : ((x :: xs).drop b).length ≤ n := by
            have := List.length_drop b (x :: xs)
            have hlen : (x :: xs).length = xs.length + 1 := rfl
            omega
          have := ih ((x :: xs).drop b) hd c
          rw [hrest] at this
          exact this hc2

theorem chunkifyGo_ne_nil {α : Type _} (b fuel : Nat) (l : List α)
    (hl : l.length ≤ fuel) (hne : l ≠ []) : chunkifyGo b fuel l ≠ [] := by
  cases l with
  | nil => exact absurd rfl hne
  | cons x xs =>
    cases fuel with
    | zero => simp at hl
    | succ n =>
      rw [chunkifyGo_cons]
      exact List.cons_ne_nil _ _

theorem chunkifyGo_getLast {α : Type _} (b : Nat) (hb : 0 < b) :
    ∀ (fuel : Nat) (l : List α), l.length ≤ fuel → l ≠ [] →
      ∃ c, (chunkifyGo b fuel l).getLast? = some c ∧
        c.length = if l.length % b = 0 then b else l.length % b := by
  intro fuel
  induction fuel with
  | zero =>
    intro l hl hne
    have : l = [] := List.eq_nil_of_length_eq_zero (Nat.le_zero.mp hl)
    exact absurd this hne
  | succ n ih =>
    intro l hl hne
    cases l with
    | nil => exact absurd rfl hne
    | cons x xs =>
      rw [chunkifyGo_cons]
      have hlen : (x :: xs).length = xs.length + 1 := rfl
      have hd : ((x :: xs).drop b).length = (x :: xs).length - b :=
        List.length_drop b (x :: xs)
      by_cases hdnil : (x :: xs).drop b = []
      · rw [hdnil, chunkifyGo_nil]
        refine ⟨(x :: xs).take b, List.getLast?_singleton _, ?_⟩
        have hle : (x :: xs).length ≤ b := by
          rw [hdnil] at hd
          simp at hd
          omega
        rw [List.length_take]
        rcases Nat.lt_or_ge (x :: xs).length b with hlt | hge
        · rw [if_neg, Nat.mod_eq_of_lt hlt]
          · omega
          · rw [Nat.mod_eq_of_lt hlt]
            omega
        · have heq : (x :: xs).length = b := by omega
          rw [heq]
          simp
      · have hdl : ((x :: xs).drop b).length ≤ n := by omega
        obtain ⟨c, hc1, hc2⟩ := ih ((x :: xs).drop b) hdl hdnil
        rcases hrest : chunkifyGo b n ((x :: xs).drop b) with _ | ⟨r, rs⟩
        · exact absurd hrest (chunkifyGo_ne_nil b n _ hdl hdnil)
        · refine ⟨c, ?_, ?_⟩
          · rw [List.getLast?_cons_cons, ← hrest]
            exact hc1
          · have hblen : b ≤ (x :: xs).length := by
              by_contra hcon
              push_neg at hcon
              have : (x :: xs).drop b = [] := by
                apply List.eq_nil_of_length_eq_zero
                omega
              exact hdnil this
            have hmod : ((x :: xs).drop b).length % b = (x :: xs).length % b := by
              rw [hd]
              conv_rhs => rw [show (x :: xs).length = ((x :: xs).length - b) + b by omega]
              rw [Nat.add_mod_right]
            rw [hc2, hmod]

theorem chunkify_flatten {α : Type _} (l : List α) (b : Nat) (hb : 0 < b) :
    (chunkify l b).flatten = l :=
  chunkifyGo_flatten b hb l.length l le_rfl

theorem chunkifyGo_fuel {α : Type _} (b : Nat) (hb : 0 < b) :
    ∀ (fuel fuel' : Nat) (l : List α), l.length ≤ fuel → l.length ≤ fuel' →
      chunkifyGo b fuel l = chunkifyGo b fuel' l := by
  intro fuel
  induction fuel with
  | zero =>
    intro fuel' l hl _
    have : l = [] := List.eq_nil_of_length_eq_zero (Nat.le_zero.mp hl)
    subst this
    simp [chunkifyGo_nil]
  | succ n ih =>
    intro fuel' l hl hl'
    cases l with
    | nil => simp [chunkifyGo_nil]
    | cons x xs =>
      cases fuel' with
      | zero => simp at hl'
      | succ n' =>
        rw [chunkifyGo_cons, chunkifyGo_cons]
        congr 1
        have hd : ((x :: xs).drop b).length = (x :: xs).length - b :=
          List.length_drop b (x :: xs)
        have hlen : (x :: xs).length = xs.length + 1 := rfl
        exact ih n' _ (by omega) (by omega)

theorem chunkify_cons_eq {α : Type _} (b : Nat) (hb : 0 < b) (x : α) (xs : List α) :
    chunkify (x :: xs) b = (x :: xs).take b :: chunkify ((x :: xs).drop b) b := by
  unfold chunkify
  rw [show (x :: xs).length = xs.length + 1 from rfl, chunkifyGo_cons]
  congr 1
  have hd : ((x :: xs).drop b).length = (x :: xs).length - b :=
    List.length_drop b (x :: xs)
  have hlen : (x :: xs).length = xs.length + 1 := rfl
  exact chunkifyGo_fuel b hb xs.length ((x :: xs).drop b).length _ (by omega) le_rfl

theorem chunkify_ne_nil_eq {α : Type _} (b : Nat) (hb : 0 < b) (l : List α)
    (hne : l ≠ []) :
    chunkify l b = l.take b :: chunkify (l.drop b) b := by
  obtain ⟨x, xs, rfl⟩ := List.exists_cons_of_ne_nil hne
  exact chunkify_cons_eq b hb x xs

theorem chunkify_len40_bs16 {α : Type _} (l : List α) (h : l.length = 40) :
    (chunkify l 16).map List.length = [16, 16, 8] := by
  have hb : (0 : Nat) < 16 := by norm_num
  have h1 : l ≠ [] := by
    intro hl
    rw [hl] at h
    simp at h
  have hd1 : (l.drop 16).length = 24 := by
    rw [List.length_drop]
    omega
  have h2 : l.drop 16 ≠ [] := by
    intro hl
    rw [hl] at hd1
    simp at hd1
  have hd2 : ((l.drop 16).drop 16).length = 8 := by
    rw [List.length_drop]
    omega
  have h3 : (l.drop 16).drop 16 ≠ [] := by
    intro hl
    rw [hl] at hd2
    simp at hd2
  have hd3 : (((l.drop 16).drop 16).drop 16).length = 0 := by
    rw [List.length_drop]
    omega
  have h4 : ((l.drop 16).drop 16).drop 16 = [] :=
    List.eq_nil_of_length_eq_zero hd3
  rw [chunkify_ne_nil_eq 16 hb l h1, chunkify_ne_nil_eq 16 hb _ h2,
    chunkify_ne_nil_eq 16 hb _ h3, h4]
  have h5 : chunkify ([] : List α) 16 = [] := rfl
  rw [h5]
  simp [List.length_take, h, hd1, hd2]

/-- C5: for every batch size b at least 1 and every ordered sequence l, the
batch scheduler chunkify yields exactly ceil of length over b contiguous
batches, each batch except possibly the last of size exactly b, the last of
size length mod b (or b when b divides the length), and concatenating the
batches in order reproduces the original sequence, so order and total count
are preserved with no reordering and no deduplication. -/
theorem chunkify_spec {α : Type _} (l : List α) (b : Nat) (hb : 1 ≤ b) :
    (chunkify l b).length = (l.length + b - 1) / b ∧
    (chunkify l b).flatten = l ∧
    (∀ c ∈ (chunkify l b).dropLast, c.length = b) ∧
    (l ≠ [] → ∃ c, (chunkify l b).getLast? = some c ∧
      c.length = if l.length % b = 0 then b else l.length % b) :=
  ⟨chunkifyGo_length b hb l.length l le_rfl,
   chunkifyGo_flatten b hb l.length l le_rfl,
   chunkifyGo_dropLast b hb l.length l le_rfl,
   fun h => chunkifyGo_getLast b hb l.length l le_rfl h⟩

/-- Witness for chunkify_spec: a five-element sequence with batch size 2
yields three batches of sizes 2, 2 and 1 that concatenate back to the
sequence. -/
theorem chunkify_spec_witness :
    (chunkify ([0, 1, 2, 3, 4] : List Nat) 2).length =
      (([0, 1, 2, 3, 4] : List Nat).length + 2 - 1) / 2 ∧
    (chunkify ([0, 1, 2, 3, 4] : List Nat) 2).flatten = [0, 1, 2, 3, 4] ∧
    (∀ c ∈ (chunkify ([0, 1, 2, 3, 4] : List Nat) 2).dropLast, c.length = 2) ∧
    (([0, 1, 2, 3, 4] : List Nat) ≠ [] →
      ∃ c, (chunkify ([0, 1, 2, 3, 4] : List Nat) 2).getLast? = some c ∧
        c.length =
          if ([0, 1, 2, 3, 4] : List Nat).length % 2 = 0 then 2
          else ([0, 1, 2, 3, 4] : List Nat).length % 2) :=
  chunkify_spec [0, 1, 2, 3, 4] 2 (by norm_num)

/-- C8 counterexample: the batching options of the configuration model are
plain integer fields with no lower bound, so a settings value with
page_batch_size equal to 0 is accepted by the model rather than rejected as
a configuration error; in particular it is false that every settings value
has all batching options at least 1. -/
theorem batch_size_not_validated :
    ({ page_batch_size := 0 } : BatchConcurrencySettings).page_batch_size = 0 ∧
    ¬ (∀ s : BatchConcurrencySettings,
        1 ≤ s.page_batch_size ∧ 1 ≤ s.page_batch_concurrency ∧
        1 ≤ s.doc_batch_size ∧ 1 ≤ s.doc_batch_concurrency ∧
        1 ≤ s.elements_batch_size) := by
  refine ⟨rfl, fun h => ?_⟩
  exact absurd (h { page_batch_size := 0 }).1 (by decide)

/-- C8 (amended): the recognized batching options are integers with defaults
page_batch_size 4, page_batch_concurrency 2, doc_batch_size 2,
doc_batch_concurrency 2 and elements_batch_size 16; the configuration model
enforces no lower bound, so a batch size of 0 or less is accepted rather
than rejected. -/
theorem batch_settings_defaults :
    settings_perf.doc_batch_size = 2 ∧ settings_perf.doc_batch_concurrency = 2 ∧
    settings_perf.page_batch_size = 4 ∧ settings_perf.page_batch_concurrency = 2 ∧
    settings_perf.elements_batch_size = 16 :=
  ⟨rfl, rfl, rfl, rfl, rfl⟩

/-- C9: backend teardown is idempotent: after one unload call the
path_or_stream field is None, a second unload call leaves the state exactly
as the first call produced it and closes no stream, so unload composed with
itself equals unload on the backend state. -/
theorem unload_idempotent (b : MsPowerpointDocumentBackend) :
    (b.unload.1.unload).1 = b.unload.1 ∧
    b.unload.1.path_or_stream = none ∧
    (b.unload.1.unload).2 = false := by
  rcases b with ⟨ps⟩
  rcases ps with _ | src
  · exact ⟨rfl, rfl, rfl⟩
  · rcases src with c | p <;> exact ⟨rfl, rfl, rfl⟩

theorem determineStatusGo_run (pages : List Page) :
    (∀ p ∈ pages, p._backend.isSome = true) →
    ∀ (errs : List ErrorItem) (st : ConversionStatus),
      determineStatusGo pages errs st =
        .ok (errs ++ pages.filterMap pageErrorOf,
          if pages.all pageValid then st else .PARTIAL_SUCCESS) := by
  induction pages with
  | nil =>
    intro _ errs st
    simp [determineStatusGo]
  | cons p ps ih =>
    intro h errs st
    have hmem : ∀ q ∈ ps, q._backend.isSome = true :=
      fun q hq => h q (List.mem_cons_of_mem p hq)
    have hp : p._backend.isSome = true := h p (List.mem_cons_self p ps)
    rcases hb : p._backend with _ | b
    · rw [hb] at hp
      simp at hp
    · by_cases hv : b.is_valid = true
      · have hrec := ih hmem errs st
        have hnone : pageErrorOf p = none := by
          simp [pageErrorOf, hb, hv]
        have hval : pageValid p = true := by
          simp [pageValid, hb, hv]
        simp [determineStatusGo, hb, hv, hrec, List.filterMap_cons, hnone, hval]
      · rw [Bool.not_eq_true] at hv
        have hrec := ih hmem (errs ++ [pageErrorItem p]) ConversionStatus.PARTIAL_SUCCESS
        have hsome : pageErrorOf p = some (pageErrorItem p) := by
          simp [pageErrorOf, hb, hv]
        have hval : pageValid p = false := by
          simp [pageValid, hb, hv]
        simp [determineStatusGo, hb, hv, hrec, List.filterMap_cons, hsome, hval]

theorem filterMap_pageErrorOf_eq (pages : List Page)
    (h : ∀ p ∈ pages, p._backend.isSome = true) :
    pages.filterMap pageErrorOf =
      (pages.filter (fun p => !pageValid p)).map pageErrorItem := by
  induction pages with
  | nil => rfl
  | cons p ps ih =>
    have hmem : ∀ q ∈ ps, q._backend.isSome = true :=
      fun q hq => h q (List.mem_cons_of_mem p hq)
    have hp : p._backend.isSome = true := h p (List.mem_cons_self p ps)
    rcases hb : p._backend with _ | b
    · rw [hb] at hp
      simp at hp
    · by_cases hv : b.is_valid = true
      · have hnone : pageErrorOf p = none := by
          simp [pageErrorOf, hb, hv]
        have hval : pageValid p = true := by
          simp [pageValid, hb, hv]
        simp [List.filterMap_cons, List.filter_cons, hnone, hval, ih hmem]
      · rw [Bool.not_eq_true] at hv
        have hsome : pageErrorOf p = some (pageErrorItem p) := by
          simp [pageErrorOf, hb, hv]
        have hval : pageValid p = false := by
          simp [pageValid, hb, hv]
        simp [List.filterMap_cons, List.filter_cons, hsome, hval, ih hmem]

/-- C1: the status resolver starts from SUCCESS and, for each page record
whose backend reports invalid, appends exactly one error item with component
DOCUMENT_BACKEND whose message names that page index, downgrading the status
to PARTIAL_SUCCESS; the resulting error list is the input list extended by
exactly one item per invalid page, in page order, so a document whose page
backends are all valid keeps status SUCCESS and gains no errors, and a
document with k invalid pages ends at PARTIAL_SUCCESS with exactly k new
items.  The local status always starts at SUCCESS, and execute only reaches
the status resolver when no earlier phase raised, so the resolver never
overrides a FAILURE set by the build phase. -/
theorem determine_status_resolves (pages : List Page) (errs : List ErrorItem)
    (h : ∀ p ∈ pages, p._backend.isSome = true) :
    determineStatusGo pages errs .SUCCESS =
      .ok (errs ++ pages.filterMap pageErrorOf,
        if pages.all pageValid then .SUCCESS else .PARTIAL_SUCCESS) ∧
    pages.filterMap pageErrorOf =
      (pages.filter (fun p => !pageValid p)).map pageErrorItem ∧
    (pages.filterMap pageErrorOf).length =
      (pages.filter (fun p => !pageValid p)).length := by
  refine ⟨determineStatusGo_run pages h errs .SUCCESS, filterMap_pageErrorOf_eq pages h, ?_⟩
  rw [filterMap_pageErrorOf_eq pages h, List.length_map]

/-- Witness for determine_status_resolves: the five-page scenario of the
spec with backend validity true, false, true, true, false resolves to
PARTIAL_SUCCESS with exactly the two error items naming pages 1 and 4. -/
theorem determine_status_resolves_witness :
    determineStatusGo pages5 [] .SUCCESS =
      .ok ([] ++ pages5.filterMap pageErrorOf,
        if pages5.all pageValid then .SUCCESS else .PARTIAL_SUCCESS) ∧
    pages5.filterMap pageErrorOf =
      (pages5.filter (fun p => !pageValid p)).map pageErrorItem ∧
    (pages5.filterMap pageErrorOf).length =
      (pages5.filter (fun p => !pageValid p)).length :=
  determine_status_resolves pages5 [] (by decide)

/-- C3: an input document that fails the initial validity check makes
execute return immediately: the result has status FAILURE, empty error
list, empty page list and empty output, no phase has touched the result,
and no backend unload call is attempted. -/
theorem execute_invalid_fails (m : PaginatedModel) (in_doc : InputDocument)
    (raises_on_error : Bool) (hv : in_doc.valid = false) :
    executePaginated m in_doc raises_on_error =
      (.ok { input := in_doc, status := .FAILURE }, 0) := by
  simp [executePaginated, initialConvRes, hv]

/-- Witness for execute_invalid_fails at the invalid document. -/
theorem execute_invalid_fails_witness :
    executePaginated trivialModel invalidDoc true =
      (.ok { input := invalidDoc, status := .FAILURE }, 0) :=
  execute_invalid_fails trivialModel invalidDoc true rfl

/-- C4: on a valid input, any fault raised inside the build, assemble,
enrich or status-determination phase of execute leads to a returned result
with status FAILURE when raises_on_error is false, and to the same fault
propagating to the caller exactly when raises_on_error is true. -/
theorem execute_fault_handling (bld asm enr : Phase)
    (det : InputDocument → ConversionResult →
      Except (Exn × ConversionResult) (ConversionResult × ConversionStatus))
    (in_doc : InputDocument) (e : Exn) (cr : ConversionResult)
    (hv : in_doc.valid = true)
    (herr : runPhases bld asm enr det in_doc (initialConvRes in_doc) = .error (e, cr)) :
    execute bld asm enr det in_doc false = .ok { cr with status := .FAILURE } ∧
    execute bld asm enr det in_doc true = .error e := by
  constructor <;> simp [execute, hv, herr]

/-- Witness for execute_fault_handling: a build phase that raises at once,
on a valid document. -/
theorem execute_fault_handling_witness :
    execute failingBuild idPhase idPhase okDet validDoc false =
      .ok { initialConvRes validDoc with status := .FAILURE } ∧
    execute failingBuild idPhase idPhase okDet validDoc true =
      .error (.other boomMsg) :=
  execute_fault_handling failingBuild idPhase idPhase okDet validDoc
    (.other boomMsg) (initialConvRes validDoc) rfl rfl

/-- C10: on a valid input whose attached backend is not a PdfDocumentBackend,
the build phase raises a RuntimeError before any page record is created and
before the cleanup block is entered (the fault carries the untouched
conversion result and the unload count is 0), so execute with raises_on_error
false returns a result with status FAILURE and an empty page list, and
execute with raises_on_error true propagates the RuntimeError; in both cases
no unload call happens. -/
theorem nonpdf_backend_failure (m : PaginatedModel) (in_doc : InputDocument)
    (hv : in_doc.valid = true) (hnp : backendIsPdf in_doc = false) :
    _build_document m in_doc (initialConvRes in_doc) =
      (.error (.runtimeError notPdfBackendMsg, initialConvRes in_doc), 0) ∧
    executePaginated m in_doc false = (.ok { input := in_doc, status := .FAILURE }, 0) ∧
    executePaginated m in_doc true = (.error (.runtimeError notPdfBackendMsg), 0) := by
  refine ⟨?_, ?_, ?_⟩ <;>
    simp [_build_document, executePaginated, initialConvRes, hv, hnp]

/-- Witness for nonpdf_backend_failure: the PowerPoint-backed document under
the trivial paginated pipeline. -/
theorem nonpdf_backend_failure_witness :
    _build_document trivialModel nonPdfDoc (initialConvRes nonPdfDoc) =
      (.error (.runtimeError notPdfBackendMsg, initialConvRes nonPdfDoc), 0) ∧
    executePaginated trivialModel nonPdfDoc false =
      (.ok { input := nonPdfDoc, status := .FAILURE }, 0) ∧
    executePaginated trivialModel nonPdfDoc true =
      (.error (.runtimeError notPdfBackendMsg), 0) :=
  nonpdf_backend_failure trivialModel nonPdfDoc rfl rfl

theorem backendIsPdf_isSome (in_doc : InputDocument)
    (hp : backendIsPdf in_doc = true) : in_doc.backend.isSome = true := by
  unfold backendIsPdf at hp
  rcases h : in_doc.backend with _ | b
  · rw [h] at hp
    simp at hp
  · rfl

theorem build_unloads_once (m : PaginatedModel) (in_doc : InputDocument)
    (hp : backendIsPdf in_doc = true) :
    ∀ conv_res : ConversionResult, (_build_document m in_doc conv_res).2 = 1 := by
  intro conv_res
  have hs := backendIsPdf_isSome in_doc hp
  unfold _build_document
  rw [hp]
  rcases hpb : processBatches m in_doc
      (chunkify (conv_res.pages ++
        (List.range in_doc.page_count).map (fun i => ({ page_no := i } : Page)))
        m.perf.page_batch_size.toNat) with e | np <;>
    simp [hpb, hs]

/-- C2 (amended): whenever the input document is valid and its acquired
backend is a PdfDocumentBackend, the backend unload is invoked exactly once
during execute, whether the build phase succeeded, a page failed or a stage
raised an uncaught fault; on the backend-type-mismatch path the RuntimeError
is raised before the cleanup block and unload is not invoked at all. -/
theorem unload_called_once (m : PaginatedModel) (in_doc : InputDocument)
    (conv_res : ConversionResult) (raises_on_error : Bool)
    (hv : in_doc.valid = true) (hp : backendIsPdf in_doc = true) :
    (_build_document m in_doc conv_res).2 = 1 ∧
    (executePaginated m in_doc raises_on_error).2 = 1 := by
  refine ⟨build_unloads_once m in_doc hp conv_res, ?_⟩
  unfold executePaginated
  rcases hbd : _build_document m in_doc (initialConvRes in_doc) with ⟨res, u⟩
  have hu : u = 1 := by
    have h1 := build_unloads_once m in_doc hp (initialConvRes in_doc)
    rw [hbd] at h1
    exact h1
  subst hu
  rcases res with ⟨e, cr⟩ | cr
  · simp [hv, hbd]
  · rcases hds : _determine_status
        ((_enrich_document m.enrichment_pipe m.perf.elements_batch_size.toNat cr).1) with
      ⟨e2, errs⟩ | ⟨errs, st⟩ <;>
      simp [hv, hbd, hds]

/-- Witness for unload_called_once: the trivial paginated pipeline on a
valid ten-page PDF-backed document performs exactly one unload call. -/
theorem unload_called_once_witness :
    (_build_document trivialModel pdfDoc10 (initialConvRes pdfDoc10)).2 = 1 ∧
    (executePaginated trivialModel pdfDoc10 false).2 = 1 :=
  unload_called_once trivialModel pdfDoc10 (initialConvRes pdfDoc10) false rfl rfl

/-- C2 counterexample: a valid document on which a backend was acquired (the
PowerPoint backend, attached and inspected by the build phase) goes through
execute with zero unload calls, because the backend-type guard raises before
the try-finally cleanup block; so it is false that unload is invoked exactly
once on every document handle with an acquired backend. -/
theorem unload_zero_on_nonpdf :
    nonPdfDoc.backend.isSome = true ∧
    (executePaginated trivialModel nonPdfDoc false).2 = 0 ∧
    (executePaginated trivialModel nonPdfDoc true).2 = 0 :=
  ⟨rfl, rfl, rfl⟩

/-- C6: for an enrichment stage and an assembled document, the enrich phase
filters the elements of the document in document order through the
is_processable predicate of the stage, groups the kept elements into
contiguous batches of the configured elements_batch_size and invokes the
stage once per batch: the batches concatenate back to exactly the filtered
elements, every batch except possibly the last has exactly the configured
size, and with batch size 16 and 40 processable elements the stage is
invoked exactly 3 times on batches of sizes 16, 16 and 8. -/
theorem enrich_document_batches (model : BaseEnrichmentModel)
    (conv_res : ConversionResult) (bs : Nat) (hbs : 1 ≤ bs) :
    (_enrich_document [model] bs conv_res).1 = conv_res ∧
    (_enrich_document [model] bs conv_res).2 =
      chunkify (_filter_elements conv_res.output model) bs ∧
    ((_enrich_document [model] bs conv_res).2).flatten =
      _filter_elements conv_res.output model ∧
    (∀ c ∈ ((_enrich_document [model] bs conv_res).2).dropLast, c.length = bs) ∧
    ((_filter_elements conv_res.output model).length = 40 → bs = 16 →
      ((_enrich_document [model] bs conv_res).2).map List.length = [16, 16, 8] ∧
      ((_enrich_document [model] bs conv_res).2).length = 3) := by
  have h2 : (_enrich_document [model] bs conv_res).2 =
      chunkify (_filter_elements conv_res.output model) bs := by
    simp [_enrich_document]
  refine ⟨rfl, h2, ?_, ?_, ?_⟩
  · rw [h2]
    exact chunkify_flatten _ bs hbs
  · rw [h2]
    exact chunkifyGo_dropLast bs hbs _ _ le_rfl
  · intro h40 hbs16
    subst hbs16
    have hmap := chunkify_len40_bs16 (_filter_elements conv_res.output model) h40
    rw [h2]
    refine ⟨hmap, ?_⟩
    have := congrArg List.length hmap
    rw [List.length_map] at this
    simpa using this

/-- Witness for enrich_document_batches: a stage that processes every
element, on an assembled document of forty elements, with the default
element batch size 16. -/
theorem enrich_document_batches_witness :
    (_enrich_document [allModel] 16 doc40Res).1 = doc40Res ∧
    (_enrich_document [allModel] 16 doc40Res).2 =
      chunkify (_filter_elements doc40Res.output allModel) 16 ∧
    ((_enrich_document [allModel] 16 doc40Res).2).flatten =
      _filter_elements doc40Res.output allModel ∧
    (∀ c ∈ ((_enrich_document [allModel] 16 doc40Res).2).dropLast, c.length = 16) ∧
    ((_filter_elements doc40Res.output allModel).length = 40 → 16 = 16 →
      ((_enrich_document [allModel] 16 doc40Res).2).map List.length = [16, 16, 8] ∧
      ((_enrich_document [allModel] 16 doc40Res).2).length = 3) :=
  enrich_document_batches allModel doc40Res 16 (by norm_num)

theorem initPages_map_page_no (m : PaginatedModel) (in_doc : InputDocument)
    (hinit : ∀ p q, m.initialize_page in_doc p = .ok q → q.page_no = p.page_no) :
    ∀ (b b' : List Page), initPages m in_doc b = .ok b' →
      b'.map Page.page_no = b.map Page.page_no := by
  intro b
  induction b with
  | nil =>
    intro b' h
    simp [initPages] at h
    subst h
    rfl
  | cons p ps ih =>
    intro b' h
    unfold initPages at h
    rcases hq : m.initialize_page in_doc p with e | q
    · rw [hq] at h
      simp at h
    · rw [hq] at h
      rcases hqs : initPages m in_doc ps with e | qs
      · rw [hqs] at h
        simp at h
      · rw [hqs] at h
        simp at h
        subst h
        rw [List.map_cons, List.map_cons, hinit p q hq, ih qs hqs]

theorem applyOnPages_map_page_no (pipe : List StageFn)
    (hstage : ∀ s ∈ pipe, ∀ (b b' : List Page), s b = .ok b' →
      b'.map Page.page_no = b.map Page.page_no) :
    ∀ (b b' : List Page), _apply_on_pages pipe b = .ok b' →
      b'.map Page.page_no = b.map Page.page_no := by
  induction pipe with
  | nil =>
    intro b b' h
    simp [_apply_on_pages] at h
    subst h
    rfl
  | cons s rest ih =>
    intro b b' h
    unfold _apply_on_pages at h
    rcases hs : s b with e | b2
    · rw [hs] at h
      simp at h
    · rw [hs] at h
      have h1 := hstage s (List.mem_cons_self s rest) b b2 hs
      have h2 := ih (fun t ht => hstage t (List.mem_cons_of_mem s ht)) b2 b' h
      rw [h2, h1]

theorem processBatches_map_page_no (m : PaginatedModel) (in_doc : InputDocument)
    (hinit : ∀ p q, m.initialize_page in_doc p = .ok q → q.page_no = p.page_no)
    (hstage : ∀ s ∈ m.build_pipe, ∀ (b b' : List Page), s b = .ok b' →
      b'.map Page.page_no = b.map Page.page_no) :
    ∀ (bs : List (List Page)) (out : List Page), processBatches m in_doc bs = .ok out →
      out.map Page.page_no = bs.flatten.map Page.page_no := by
  intro bs
  induction bs with
  | nil =>
    intro out h
    simp [processBatches] at h
    subst h
    rfl
  | cons batch rest ih =>
    intro out h
    unfold processBatches at h
    rcases h1 : initPages m in_doc batch with e | ib
    · rw [h1] at h
      simp at h
    · rw [h1] at h
      dsimp only at h
      rcases h2 : _apply_on_pages m.build_pipe ib with e | pb
      · rw [h2] at h
        simp at h
      · rw [h2] at h
        dsimp only at h
        rcases h3 : processBatches m in_doc rest with e | ro
        · rw [h3] at h
          simp at h
        · rw [h3] at h
          simp at h
          subst h
          rw [List.flatten_cons, List.map_append, List.map_append,
            applyOnPages_map_page_no m.build_pipe hstage ib pb h2,
            initPages_map_page_no m in_doc hinit batch ib h1, ih ro h3]

/-- C7: the build phase creates exactly one page record per page, the
created list has the page with 0-based index i at position i and the indices
are distinct; and whenever the build phase returns (the stages being
identity-shaped, preserving the page index sequence of each batch, and the
page batch size being at least 1), the page records of the returned result
carry the indices 0 to page_count - 1 in order, independent of how the pages
were grouped into batches. -/
theorem build_pages_indexed (m : PaginatedModel) (in_doc : InputDocument)
    (conv_res : ConversionResult)
    (hpages : conv_res.pages = [])
    (hbs : 0 < m.perf.page_batch_size.toNat)
    (hinit : ∀ p q, m.initialize_page in_doc p = .ok q → q.page_no = p.page_no)
    (hstage : ∀ s ∈ m.build_pipe, ∀ (b b' : List Page), s b = .ok b' →
      b'.map Page.page_no = b.map Page.page_no) :
    ((List.range in_doc.page_count).map (fun i => ({ page_no := i } : Page))).map
        Page.page_no = List.range in_doc.page_count ∧
    (((List.range in_doc.page_count).map (fun i => ({ page_no := i } : Page))).map
        Page.page_no).Nodup ∧
    (∀ (cr : ConversionResult) (u : Nat),
      _build_document m in_doc conv_res = (.ok cr, u) →
      cr.pages.map Page.page_no = List.range in_doc.page_count) := by
  have hcreate : ((List.range in_doc.page_count).map
      (fun i => ({ page_no := i } : Page))).map Page.page_no =
      List.range in_doc.page_count := by
    rw [List.map_map]
    exact List.map_id _
  refine ⟨hcreate, by rw [hcreate]; exact List.nodup_range _, ?_⟩
  intro cr u h
  unfold _build_document at h
  by_cases hpdf : backendIsPdf in_doc = true
  · rw [hpdf] at h
    simp only [if_true] at h
    rw [hpages, List.nil_append] at h
    rcases hpb : processBatches m in_doc
        (chunkify ((List.range in_doc.page_count).map
          (fun i => ({ page_no := i } : Page))) m.perf.page_batch_size.toNat) with e | np
    · rw [hpb] at h
      simp at h
    · rw [hpb] at h
      simp at h
      have hcr : cr.pages = np := by
        rw [← h.1]
      have hmap := processBatches_map_page_no m in_doc hinit hstage _ np hpb
      rw [hcr, hmap, chunkify_flatten _ _ hbs, hcreate]
  · rw [Bool.not_eq_true] at hpdf
    rw [hpdf] at h
    simp at h

/-- Witness for build_pages_indexed: the trivial pipeline on the ten-page
PDF document with the default page batch size 4, so the ten pages are
processed in batches of sizes 4, 4 and 2 and come back ordered 0 to 9. -/
theorem build_pages_indexed_witness :
    ((List.range pdfDoc10.page_count).map (fun i => ({ page_no := i } : Page))).map
        Page.page_no = List.range pdfDoc10.page_count ∧
    (((List.range pdfDoc10.page_count).map (fun i => ({ page_no := i } : Page))).map
        Page.page_no).Nodup ∧
    (∀ (cr : ConversionResult) (u : Nat),
      _build_document trivialModel pdfDoc10 (initialConvRes pdfDoc10) = (.ok cr, u) →
      cr.pages.map Page.page_no = List.range pdfDoc10.page_count) :=
  build_pages_indexed trivialModel pdfDoc10 (initialConvRes pdfDoc10) rfl (by decide)
    (fun p q h => by injection h with h2; rw [h2])
    (fun s hs => absurd hs (List.not_mem_nil s))

end Docling
